import Mathlib

/-!
Verification development for the Twitch chat user agent (TMI client):
the line-oriented wire codec of `src/Message.cpp` and the session engine
of `src/Messaging.cpp`.

The C++ sources are embedded shallowly.  Byte buffers are `List Char`,
strings are Lean `String`s, and the worker-owned session state of
`Messaging::Impl` is an explicit record.  Every stateful operation
returns the successor state together with the raw lines pushed onto the
connection and the events delivered to the `User` sink; `std::vector`
indexing is embedded through `List.get?`, so an access the source makes
out of bounds surfaces as `none`.
-/

namespace Twitch

/-- The line terminator required by the Twitch chat servers. -/
def CRLF : String := "\r\n"

/-- Index of the first occurrence of CRLF in a character buffer
(`dataReceived.find(CRLF)` in `Message::Parse`). -/
def findCRLF : List Char → Option Nat
  | [] => none
  | [_] => none
  | c1 :: c2 :: rest =>
    if c1 = '\r' ∧ c2 = '\n' then some 0
    else (findCRLF (c2 :: rest)).map (· + 1)

/-- Whether a character buffer contains the CRLF sequence anywhere.
Defined independently of `findCRLF` so that theorems about the codec can
quantify over "buffers containing a CRLF" without appealing to the
parser itself. -/
def containsCRLF : List Char → Bool
  | [] => false
  | [_] => false
  | c1 :: c2 :: rest => (c1 = '\r' && c2 = '\n') || containsCRLF (c2 :: rest)

/-- The states of the parsing state machine in `Message::Parse`
(`src/Message.cpp`, the seven-state revision shipped under `src/`). -/
inductive ParseState
  | LineFirstCharacter
  | Prefix
  | CommandFirstCharacter
  | CommandNotFirstCharacter
  | ParameterFirstCharacter
  | ParameterNotFirstCharacter
  | Trailer
deriving DecidableEq

/-- A parsed message, mirroring `struct Twitch::Message`.  The field
named `prefix` in the source is called `pfx` here because `prefix` is a
Lean keyword. -/
structure Message where
  pfx : String
  command : String
  parameters : List String
deriving DecidableEq

/-- `Message()` — the default-constructed message. -/
def Message.empty : Message := ⟨"", "", []⟩

/-- `message.parameters.back() += c`: append a character to the last
parameter.  The source only does this after a `push_back`, so the list
is never empty there; on an empty list this is a no-op. -/
def appendToLast : List String → Char → List String
  | [], _ => []
  | [x], c => [x.push c]
  | x :: y :: rest, c => x :: appendToLast (y :: rest) c

/-- One iteration of the `switch` in `Message::Parse`, consuming the
character `c` in state `st` with the partially built message `m`. -/
def parseStep (st : ParseState) (m : Message) (c : Char) : ParseState × Message :=
  match st with
  | ParseState.LineFirstCharacter =>
    if c = ':' then (ParseState.Prefix, m)
    else (ParseState.CommandNotFirstCharacter, { m with command := m.command.push c })
  | ParseState.Prefix =>
    if c = ' ' then (ParseState.CommandFirstCharacter, m)
    else (ParseState.Prefix, { m with pfx := m.pfx.push c })
  | ParseState.CommandFirstCharacter =>
    if c ≠ ' ' then (ParseState.CommandNotFirstCharacter, { m with command := m.command.push c })
    else (ParseState.CommandFirstCharacter, m)
  | ParseState.CommandNotFirstCharacter =>
    if c = ' ' then (ParseState.ParameterFirstCharacter, m)
    else (ParseState.CommandNotFirstCharacter, { m with command := m.command.push c })
  | ParseState.ParameterFirstCharacter =>
    if c = ':' then (ParseState.Trailer, { m with parameters := m.parameters ++ [""] })
    else if c ≠ ' ' then
      (ParseState.ParameterNotFirstCharacter,
        { m with parameters := m.parameters ++ [String.singleton c] })
    else (ParseState.ParameterFirstCharacter, m)
  | ParseState.ParameterNotFirstCharacter =>
    if c = ' ' then (ParseState.ParameterFirstCharacter, m)
    else (ParseState.ParameterNotFirstCharacter, { m with parameters := appendToLast m.parameters c })
  | ParseState.Trailer => (ParseState.Trailer, { m with parameters := appendToLast m.parameters c })

/-- The `while (offset < line.length())` loop of `Message::Parse`,
folding `parseStep` over the characters of the line. -/
def runParser : ParseState → Message → List Char → ParseState × Message
  | st, m, [] => (st, m)
  | st, m, c :: rest =>
    let sm := parseStep st m c
    runParser sm.1 sm.2 rest

/-- Unpacking one complete line into a `Message`: run the state machine
from `LineFirstCharacter` on a fresh message, then clear the command
when the terminal state shows the line was incomplete (the trailing
`if` of `Message::Parse`). -/
def unpackLine (line : List Char) : Message :=
  let sm := runParser ParseState.LineFirstCharacter Message.empty line
  if sm.1 = ParseState.LineFirstCharacter ∨ sm.1 = ParseState.Prefix
      ∨ sm.1 = ParseState.CommandFirstCharacter
  then { sm.2 with command := "" } else sm.2

/-- `Twitch::Message::Parse`.  The C++ signature mutates `dataReceived`
and an out-parameter and returns `bool`; here `none` is the `false`
return (no CRLF found, buffer untouched) and `some (message, rest)` is
the `true` return with the line removed from the front of the buffer. -/
def MessageParse (dataReceived : List Char) : Option (Message × List Char) :=
  match findCRLF dataReceived with
  | none => none
  | some lineEnd =>
    some (unpackLine (dataReceived.take lineEnd), dataReceived.drop (lineEnd + 2))

/-- Modelled from the spec: the states of the nine-state wire-codec
machine (spec §4.1).  The tags-capable revision of `Message.cpp` that
`src/Messaging.cpp` compiles against (it dereferences `message.tags`)
is not among the files under `src/`; the shipped `src/Message.cpp` is
the earlier seven-state revision above. -/
inductive SpecState
  | LineFirstChar
  | Tags
  | PrefixOrCommandFirstChar
  | Prefix
  | CommandFirstChar
  | CommandRest
  | ParamFirstChar
  | ParamRest
  | Trailer
deriving DecidableEq

/-- Modelled from the spec: a parsed frame whose raw tag text (the text
between `@` and the first space) is kept separate from the prefix
(field `pfx`), command and parameters. -/
structure TaggedMessage where
  rawTags : String
  pfx : String
  command : String
  parameters : List String
deriving DecidableEq

/-- The default-constructed tagged message. -/
def TaggedMessage.empty : TaggedMessage := ⟨"", "", "", []⟩

/-- `message.parameters.back() += c` for tagged messages. -/
def appendToLastT : List String → Char → List String
  | [], _ => []
  | [x], c => [x.push c]
  | x :: y :: rest, c => x :: appendToLastT (y :: rest) c

/-- Modelled from the spec: one transition of the nine-state machine of
§4.1, following the grammar
`line := [ "@" tags " " ] [ ":" prefix " " ] command { " " middle } [ " :" trailer ]`
and extending the seven-state machine of `src/Message.cpp` by the
`Tags` and `PrefixOrCommandFirstChar` states. -/
def specStep (st : SpecState) (m : TaggedMessage) (c : Char) : SpecState × TaggedMessage :=
  match st with
  | SpecState.LineFirstChar =>
    if c = '@' then (SpecState.Tags, m)
    else if c = ':' then (SpecState.Prefix, m)
    else (SpecState.CommandRest, { m with command := m.command.push c })
  | SpecState.Tags =>
    if c = ' ' then (SpecState.PrefixOrCommandFirstChar, m)
    else (SpecState.Tags, { m with rawTags := m.rawTags.push c })
  | SpecState.PrefixOrCommandFirstChar =>
    if c = ':' then (SpecState.Prefix, m)
    else if c ≠ ' ' then (SpecState.CommandRest, { m with command := m.command.push c })
    else (SpecState.PrefixOrCommandFirstChar, m)
  | SpecState.Prefix =>
    if c = ' ' then (SpecState.CommandFirstChar, m)
    else (SpecState.Prefix, { m with pfx := m.pfx.push c })
  | SpecState.CommandFirstChar =>
    if c ≠ ' ' then (SpecState.CommandRest, { m with command := m.command.push c })
    else (SpecState.CommandFirstChar, m)
  | SpecState.CommandRest =>
    if c = ' ' then (SpecState.ParamFirstChar, m)
    else (SpecState.CommandRest, { m with command := m.command.push c })
  | SpecState.ParamFirstChar =>
    if c = ':' then (SpecState.Trailer, { m with parameters := m.parameters ++ [""] })
    else if c ≠ ' ' then
      (SpecState.ParamRest, { m with parameters := m.parameters ++ [String.singleton c] })
    else (SpecState.ParamFirstChar, m)
  | SpecState.ParamRest =>
    if c = ' ' then (SpecState.ParamFirstChar, m)
    else (SpecState.ParamRest, { m with parameters := appendToLastT m.parameters c })
  | SpecState.Trailer => (SpecState.Trailer, { m with parameters := appendToLastT m.parameters c })

/-- The character loop of the nine-state machine. -/
def runSpec : SpecState → TaggedMessage → List Char → SpecState × TaggedMessage
  | st, m, [] => (st, m)
  | st, m, c :: rest =>
    let sm := specStep st m c
    runSpec sm.1 sm.2 rest

/-- Modelled from the spec: terminal states that did not reach at least
`CommandRest` clear the command field, marking the frame invalid. -/
def specIncomplete (st : SpecState) : Bool :=
  st = SpecState.LineFirstChar || st = SpecState.Tags
    || st = SpecState.PrefixOrCommandFirstChar || st = SpecState.Prefix
    || st = SpecState.CommandFirstChar

/-- Unpacking one line with the nine-state machine, starting from a
given state (the whole line starts from `LineFirstChar`). -/
def specUnpackFrom (st0 : SpecState) (line : List Char) : TaggedMessage :=
  let sm := runSpec st0 TaggedMessage.empty line
  if specIncomplete sm.1 then { sm.2 with command := "" } else sm.2

/-- Modelled from the spec: unpacking one complete line with the
nine-state machine of §4.1. -/
def specUnpackLine (line : List Char) : TaggedMessage :=
  specUnpackFrom SpecState.LineFirstChar line

/-- Index of the first occurrence of a character in a buffer
(`std::string::find(char)`). -/
def findChar : List Char → Char → Option Nat
  | [], _ => none
  | c :: rest, d => if c = d then some 0 else (findChar rest d).map (· + 1)

/-- `s.substr(n)` — drop the first `n` characters. -/
def strDrop (s : String) (n : Nat) : String := String.mk (s.toList.drop n)

/-- `s.substr(0, n)` — take the first `n` characters. -/
def strTake (s : String) (n : Nat) : String := String.mk (s.toList.take n)

/-- `SystemAbstractions::Split`, modelled by its observable behavior:
split a buffer at every occurrence of the delimiter, keeping empty
segments.  The result is never the empty list. -/
def splitChar (d : Char) : List Char → List (List Char)
  | [] => [[]]
  | c :: rest =>
    match splitChar d rest with
    | [] => [[]]
    | g :: gs => if c = d then [] :: g :: gs else (c :: g) :: gs

/-- `SystemAbstractions::Split` on strings. -/
def Split (s : String) (d : Char) : List String :=
  (splitChar d s.toList).map String.mk

/-- `sscanf(s, "%zu", &out)`: parse a leading run of decimal digits;
`none` models a scan that returns 0 items matched. -/
def sscanfNat (s : String) : Option Nat :=
  let ds := s.toList.takeWhile (fun c => c.isDigit)
  if ds.isEmpty then none
  else some (ds.foldl (fun n c => n * 10 + (c.toNat - 48)) 0)

/-- `std::set< std::string >::insert`: add a string unless present. -/
def setInsert (s : List String) (x : String) : List String :=
  if s.contains x then s else s ++ [x]

/-- `capsSupported.insert(first, last)`: union a list of strings into
the set. -/
def insertAll (s : List String) (xs : List String) : List String :=
  xs.foldl setInsert s

/-- `Action::Type` of `src/Messaging.cpp`. -/
inductive ActionType
  | LogIn
  | RequestCaps
  | AwaitMotd
  | LogOut
  | ProcessMessagesReceived
  | ServerDisconnected
  | Join
  | Leave
  | SendMessage
  | SendWhisper
deriving DecidableEq

/-- `struct Action` of `src/Messaging.cpp`.  Time is embedded as `ℚ`
(the source uses `double`; only additions of 5.0 and order comparisons
occur, which the rationals model exactly). -/
structure Action where
  type : ActionType
  nickname : String
  token : String
  message : String
  anonymous : Bool
  expiration : ℚ
deriving DecidableEq

/-- An action with all context fields default-constructed, as built by
the public API methods. -/
def Action.mkType (t : ActionType) : Action := ⟨t, "", "", "", false, 0⟩

/-- `HostInfo` of `Twitch::Messaging` (the fields the HOSTTARGET
handler fills in). -/
structure HostInfo where
  hostingOn : Bool
  hosting : String
  beingHosted : String
  viewers : Nat
deriving DecidableEq

/-- A callback delivered to the `User` sink. -/
inductive Event
  | logIn
  | logOut
  | notice (text : String)
  | join (user channel : String)
  | leave (user channel : String)
  | host (info : HostInfo)
deriving DecidableEq

/-- The observable effects of one engine operation: the raw payloads
pushed onto the connection (CRLF included, in order), the number of
`connection->Disconnect()` calls, and the `User` events delivered (in
order). -/
structure Effects where
  sent : List String
  disconnects : Nat
  events : List Event
deriving DecidableEq

/-- No effects. -/
def noEff : Effects := ⟨[], 0, []⟩

/-- Sequential composition of effects. -/
def Effects.append (a b : Effects) : Effects :=
  ⟨a.sent ++ b.sent, a.disconnects + b.disconnects, a.events ++ b.events⟩

/-- The worker-owned part of `Messaging::Impl`.  `connection` abstracts
the `std::shared_ptr< Connection >` to whether it is non-null;
`hasTimeKeeper` abstracts `timeKeeper != nullptr`.  The current clock
reading (`timeKeeper->GetCurrentTime()`) is passed to operations as an
explicit `now` argument. -/
structure ImplState where
  connection : Bool
  dataReceived : List Char
  anonymous : Bool
  loggedIn : Bool
  actionsAwaitingResponses : List Action
  capsSupported : List String
  hasTimeKeeper : Bool
deriving DecidableEq

/-- `Impl::SendLineToTwitchServer`: sends the raw line plus CRLF on the
connection (the diagnostic copy, with `PASS oauth:` redaction, is not
modelled). -/
def SendLineToTwitchServer (rawLine : String) : Effects :=
  ⟨[rawLine ++ CRLF], 0, []⟩

/-- `Impl::Disconnect` (lines 479-488): a no-op without a connection;
otherwise send `QUIT :<farewell>` when the farewell is non-empty, call
`connection->Disconnect()`, and emit `User::LogOut`.  The source never
assigns `connection = nullptr` here, so the state keeps its connection
flag. -/
def Disconnect (s : ImplState) (farewell : String) : ImplState × Effects :=
  if s.connection = false then (s, noEff)
  else
    (s,
      ⟨if farewell.isEmpty then [] else ["QUIT :" ++ farewell ++ CRLF],
        1,
        [Event.logOut]⟩)

/-- `Impl::RequestCapabilities` (lines 439-446): send the `CAP REQ`
line, retype the action to `RequestCaps`, stamp its expiration when a
time keeper is configured, and append it to the awaiting list. -/
def RequestCapabilities (s : ImplState) (now : ℚ) (action : Action) : ImplState × Effects :=
  let eff := SendLineToTwitchServer "CAP REQ :twitch.tv/commands twitch.tv/membership twitch.tv/tags"
  let a :=
    { action with
        type := ActionType.RequestCaps,
        expiration := if s.hasTimeKeeper then now + 5 else action.expiration }
  ({ s with actionsAwaitingResponses := s.actionsAwaitingResponses ++ [a] }, eff)

/-- `Impl::EndCapabilitiesHandshakeAndAuthenticate` (lines 457-468):
send `CAP END`, then `PASS oauth:<token>` unless anonymous, then
`NICK <nickname>`; retype the action to `AwaitMotd`, stamp its
expiration when a time keeper is configured, and append it to the
awaiting list. -/
def EndCapabilitiesHandshakeAndAuthenticate (s : ImplState) (now : ℚ) (action : Action) :
    ImplState × Effects :=
  let eff1 := SendLineToTwitchServer "CAP END"
  let eff2 := if s.anonymous then noEff
    else SendLineToTwitchServer ("PASS oauth:" ++ action.token)
  let eff3 := SendLineToTwitchServer ("NICK " ++ action.nickname)
  let a :=
    { action with
        type := ActionType.AwaitMotd,
        expiration := if s.hasTimeKeeper then now + 5 else action.expiration }
  ({ s with actionsAwaitingResponses := s.actionsAwaitingResponses ++ [a] },
    (eff1.append eff2).append eff3)

/-- `Impl::PerformActionLogIn` (lines 628-650).  `connectOk` is the
result of `connection->Connect()`.  Note the source assigns the factory
result to `connection` before attempting to connect, so the connection
field is set even when the connect fails. -/
def PerformActionLogIn (s : ImplState) (now : ℚ) (connectOk : Bool) (action : Action) :
    ImplState × Effects :=
  if s.connection then (s, noEff)
  else if connectOk then
    ({ s with
        connection := true,
        capsSupported := [],
        anonymous := action.anonymous,
        actionsAwaitingResponses := s.actionsAwaitingResponses ++
          [{ action with
              expiration := if s.hasTimeKeeper then now + 5 else action.expiration }] },
      SendLineToTwitchServer "CAP LS 302")
  else
    ({ s with connection := true }, ⟨[], 0, [Event.logOut]⟩)

/-- `Impl::TimeoutActionLogIn` (lines 703-705). -/
def TimeoutActionLogIn (s : ImplState) : ImplState × Effects :=
  Disconnect s "Timeout waiting for capability list"

/-- `Impl::TimeoutActionRequestCaps` (lines 745-747). -/
def TimeoutActionRequestCaps (s : ImplState) : ImplState × Effects :=
  Disconnect s "Timeout waiting for response to capability request"

/-- `Impl::TimeoutActionAwaitMotd` (lines 781-783). -/
def TimeoutActionAwaitMotd (s : ImplState) : ImplState × Effects :=
  Disconnect s "Timeout waiting for MOTD"

/-- `Impl::TimeoutAction` (lines 588-598): dispatch an expired action
to its per-type timeout handler; types without a handler are dropped
silently. -/
def TimeoutAction (s : ImplState) (a : Action) : ImplState × Effects :=
  match a.type with
  | ActionType.LogIn => TimeoutActionLogIn s
  | ActionType.RequestCaps => TimeoutActionRequestCaps s
  | ActionType.AwaitMotd => TimeoutActionAwaitMotd s
  | _ => (s, noEff)

/-- The loop body of `Impl::ProcessTimeouts`: walk the awaiting list,
time out (and remove) every action with `now >= expiration`, keep the
rest.  Returns the state after the timeout handlers, the kept actions,
the timed-out actions in dispatch order, and the accumulated effects. -/
def sweepTimeouts (now : ℚ) : ImplState → List Action → ImplState × List Action × List Action × Effects
  | s, [] => (s, [], [], noEff)
  | s, a :: rest =>
    if now ≥ a.expiration then
      let se := TimeoutAction s a
      let r := sweepTimeouts now se.1 rest
      (r.1, r.2.1, a :: r.2.2.1, se.2.append r.2.2.2)
    else
      let r := sweepTimeouts now s rest
      (r.1, a :: r.2.1, r.2.2.1, r.2.2.2)

/-- `Impl::ProcessTimeouts` (lines 529-544).  Also returns the list of
actions that were dispatched to their timeout handlers. -/
def ProcessTimeouts (s : ImplState) (now : ℚ) : ImplState × List Action × Effects :=
  let r := sweepTimeouts now { s with actionsAwaitingResponses := [] } s.actionsAwaitingResponses
  ({ r.1 with actionsAwaitingResponses := r.2.1 }, r.2.2.1, r.2.2.2)

/-- An action processor (`Impl::ActionProcessor`): given the state, the
clock, the awaiting action and the message, returns whether the action
completed, plus the new state and effects.  `none` models an
out-of-bounds vector access in the source (undefined behavior). -/
def ActionProcessor : Type :=
  ImplState → ℚ → Action → Message → Option (Bool × ImplState × Effects)

/-- `Impl::DiscardAction` (lines 615-620): does nothing and returns
`false`.  (Per the processor contract, returning `false` means "not
completed", so the awaiting action is kept, not erased.) -/
def DiscardAction : ActionProcessor := fun s _ _ _ => some (false, s, noEff)

/-- `Impl::ProcessActionLogInCap` (lines 667-695): handle a `CAP` reply
while a `LogIn` action awaits.  On a `CAP * LS *` continuation the
source reads `message.parameters[3]` guarded only by
`parameters.size() < 3`, so a message with exactly three parameters
makes that access out of bounds (`none`). -/
def ProcessActionLogInCap : ActionProcessor := fun s now action msg =>
  if msg.parameters.length < 3 then some (false, s, noEff)
  else match msg.parameters.get? 1 with
    | none => none
    | some p1 =>
      if p1 ≠ "LS" then some (false, s, noEff)
      else match msg.parameters.get? 2 with
        | none => none
        | some p2 =>
          if p2 = "*" then
            match msg.parameters.get? 3 with
            | none => none
            | some p3 =>
              some (false, { s with capsSupported := insertAll s.capsSupported (Split p3 ' ') },
                noEff)
          else
            let s' := { s with capsSupported := insertAll s.capsSupported (Split p2 ' ') }
            if s'.capsSupported.contains "twitch.tv/commands" = false
                ∨ s'.capsSupported.contains "twitch.tv/membership" = false
                ∨ s'.capsSupported.contains "twitch.tv/tags" = false then
              let r := EndCapabilitiesHandshakeAndAuthenticate s' now action
              some (true, r.1, r.2)
            else
              let r := RequestCapabilities s' now action
              some (true, r.1, r.2)

/-- `Impl::ProcessActionRequestCapsCap` (lines 722-737): a `CAP` reply
with `ACK` or `NAK` completes the `RequestCaps` action and proceeds to
the auth step. -/
def ProcessActionRequestCapsCap : ActionProcessor := fun s now action msg =>
  if msg.parameters.length < 2 then some (false, s, noEff)
  else match msg.parameters.get? 1 with
    | none => none
    | some p1 =>
      if p1 ≠ "ACK" ∧ p1 ≠ "NAK" then some (false, s, noEff)
      else
        let r := EndCapabilitiesHandshakeAndAuthenticate s now action
        some (true, r.1, r.2)

/-- `Impl::ProcessActionAwaitMotdMotd` (lines 764-773): the end-of-MOTD
reply completes the `AwaitMotd` action; the first one sets `loggedIn`
and emits `User::LogIn`. -/
def ProcessActionAwaitMotdMotd : ActionProcessor := fun s _ _ _ =>
  if s.loggedIn then some (true, s, noEff)
  else some (true, { s with loggedIn := true }, ⟨[], 0, [Event.logIn]⟩)

/-- The iteration of `Impl::ProcessMessageWithAwaitingActions` (lines
503-523) over a `std::list`: visit the awaiting actions front to back
(the state's awaiting list holds the not-yet-visited part, so an action
a processor appends is visited too, as with the list's end sentinel);
erase an action when its processor returns `true`, keep it otherwise.
`fuel` bounds the iteration; in this program a processor appends at
most one action per completion, so the fuel chosen below never runs
out. -/
def loopAwaiting (procs : ActionType → Option ActionProcessor) (now : ℚ) (msg : Message) :
    Nat → ImplState → List Action → Option (ImplState × Effects)
  | 0, _, _ => none
  | fuel + 1, s, kept =>
    match s.actionsAwaitingResponses with
    | [] => some ({ s with actionsAwaitingResponses := kept }, noEff)
    | a :: rest =>
      match procs a.type with
      | none =>
        loopAwaiting procs now msg fuel
          { s with actionsAwaitingResponses := rest } (kept ++ [a])
      | some p =>
        match p { s with actionsAwaitingResponses := rest } now a msg with
        | none => none
        | some r =>
          match loopAwaiting procs now msg fuel r.2.1 (if r.1 then kept else kept ++ [a]) with
          | none => none
          | some r' => some (r'.1, r.2.2.append r'.2)

/-- `Impl::ProcessMessageWithAwaitingActions`. -/
def ProcessMessageWithAwaitingActions (procs : ActionType → Option ActionProcessor)
    (now : ℚ) (msg : Message) (s : ImplState) : Option (ImplState × Effects) :=
  loopAwaiting procs now msg (s.actionsAwaitingResponses.length * 2 + 2) s []

/-- The processor table `loginFailActionProcessors` of
`Impl::HandleServerCommandNotice`. -/
def loginFailActionProcessors (t : ActionType) : Option ActionProcessor :=
  if t = ActionType.AwaitMotd then some DiscardAction else none

/-- `Impl::HandleServerCommandNotice` (lines 980-1002): surface the
notice text; when not yet logged in and the text is exactly
`Login unsuccessful`, emit `User::LogOut` and run the awaiting list
against `DiscardAction` for `AwaitMotd`. -/
def HandleServerCommandNotice (s : ImplState) (now : ℚ) (msg : Message) :
    Option (ImplState × Effects) :=
  if msg.parameters.length < 2 ∨ ((msg.parameters.get? 0).getD "").length < 1 then
    some (s, noEff)
  else
    let noticeText := (msg.parameters.get? 1).getD ""
    let noticeEff : Effects := ⟨[], 0, [Event.notice noticeText]⟩
    if s.loggedIn = false ∧ noticeText = "Login unsuccessful" then
      let logOutEff : Effects := ⟨[], 0, [Event.logOut]⟩
      match ProcessMessageWithAwaitingActions loginFailActionProcessors now msg s with
      | none => none
      | some r => some (r.1, (noticeEff.append logOutEff).append r.2)
    else some (s, noticeEff)

/-- `Impl::HandleServerCommandJoin` (lines 870-885): with a channel
parameter and a `!` in the prefix, emit `User::Join` for the nickname
before the `!` and the channel stripped of its leading `#`. -/
def HandleServerCommandJoin (s : ImplState) (msg : Message) : ImplState × Effects :=
  if msg.parameters.length < 1 ∨ ((msg.parameters.get? 0).getD "").length < 2 then
    (s, noEff)
  else
    match findChar msg.pfx.toList '!' with
    | none => (s, noEff)
    | some d =>
      (s, ⟨[], 0,
        [Event.join (strTake msg.pfx d) (strDrop ((msg.parameters.get? 0).getD "") 1)]⟩)

/-- `Impl::HandleServerCommandPart` (lines 894-909): the `PART`
counterpart of the `JOIN` handler, emitting `User::Leave`. -/
def HandleServerCommandPart (s : ImplState) (msg : Message) : ImplState × Effects :=
  if msg.parameters.length < 1 ∨ ((msg.parameters.get? 0).getD "").length < 2 then
    (s, noEff)
  else
    match findChar msg.pfx.toList '!' with
    | none => (s, noEff)
    | some d =>
      (s, ⟨[], 0,
        [Event.leave (strTake msg.pfx d) (strDrop ((msg.parameters.get? 0).getD "") 1)]⟩)

/-- `Impl::HandleServerCommandHostTarget` (lines 1011-1037): split the
second parameter on spaces and read elements 0 and 1 of the split.  The
source indexes `secondParameterParts[1]` without any guard, so a second
parameter with no space makes that access out of bounds (`none`). -/
def HandleServerCommandHostTarget (s : ImplState) (msg : Message) :
    Option (ImplState × Effects) :=
  if msg.parameters.length < 2 ∨ ((msg.parameters.get? 0).getD "").length < 2 then
    some (s, noEff)
  else
    let hosting := strDrop ((msg.parameters.get? 0).getD "") 1
    let parts := Split ((msg.parameters.get? 1).getD "") ' '
    match parts.get? 0 with
    | none => none
    | some part0 =>
      let onAndHosted := if part0 = "-" then (false, "") else (true, part0)
      match parts.get? 1 with
      | none => none
      | some part1 =>
        let viewers := (sscanfNat part1).getD 0
        some (s, ⟨[], 0, [Event.host ⟨onAndHosted.1, hosting, onAndHosted.2, viewers⟩]⟩)

/-- `Impl::PerformActionLogOut` (lines 791-793). -/
def PerformActionLogOut (s : ImplState) (action : Action) : ImplState × Effects :=
  Disconnect s action.message

/-- `Impl::PerformActionServerDisconnected` (lines 1294-1296). -/
def PerformActionServerDisconnected (s : ImplState) : ImplState × Effects :=
  Disconnect s ""

/-- `Impl::PerformActionSendMessage` (lines 1330-1338): nothing without
a connection or while anonymous; otherwise send the `PRIVMSG` line. -/
def PerformActionSendMessage (s : ImplState) (action : Action) : ImplState × Effects :=
  if s.connection = false then (s, noEff)
  else if s.anonymous then (s, noEff)
  else (s, SendLineToTwitchServer ("PRIVMSG #" ++ action.nickname ++ " :" ++ action.message))

/-- `Impl::PerformActionSendWhisper` (lines 1346-1354): nothing without
a connection or while anonymous; otherwise send the whisper through
`#jtv`. -/
def PerformActionSendWhisper (s : ImplState) (action : Action) : ImplState × Effects :=
  if s.connection = false then (s, noEff)
  else if s.anonymous then (s, noEff)
  else
    (s, SendLineToTwitchServer ("PRIVMSG #jtv :.w " ++ action.nickname ++ " " ++ action.message))

/-- The three capabilities the engine requests, as a boolean predicate
on the accumulated advertised set. -/
def hasAllThreeCaps (caps : List String) : Bool :=
  caps.contains "twitch.tv/commands" && caps.contains "twitch.tv/membership"
    && caps.contains "twitch.tv/tags"

/-- The space-separated capability list, as advertised by the server. -/
def threeCapsStr : String := "twitch.tv/commands twitch.tv/membership twitch.tv/tags"

/-- A concrete receive buffer holding one complete line, for witnesses. -/
def witnessBuf : List Char := ['P', 'I', 'N', 'G', ' ', ':', 'x', '\r', '\n', 'P', 'O']

/-- A concrete connected, non-anonymous session state. -/
def baseState : ImplState := ⟨true, [], false, false, [], [], true⟩

/-- A concrete connected, anonymous session state. -/
def anonState : ImplState := ⟨true, [], true, false, [], [], true⟩

/-- A concrete `LogIn` action, as the public `LogIn` method builds it. -/
def logInAction : Action := ⟨ActionType.LogIn, "foobar1124", "tok", "", false, 0⟩

/-- A concrete `AwaitMotd` awaiter with expiration 5. -/
def motdAwaiter : Action := ⟨ActionType.AwaitMotd, "foobar1124", "tok", "", false, 5⟩

/-- A connected session awaiting the MOTD (one `AwaitMotd` awaiter, not
yet logged in). -/
def awaitMotdState : ImplState := ⟨true, [], false, false, [motdAwaiter], [], true⟩

/-- A CAP LS response advertising all three capabilities. -/
def capLsAllMsg : Message :=
  ⟨"tmi.twitch.tv", "CAP",
    ["*", "LS", "twitch.tv/commands twitch.tv/membership twitch.tv/tags"]⟩

/-- The `NOTICE * :Login unsuccessful` frame as parsed. -/
def loginFailNotice : Message := ⟨"tmi.twitch.tv", "NOTICE", ["*", "Login unsuccessful"]⟩

/-- The `NOTICE * :Login authentication failed` frame as parsed. -/
def authFailedNotice : Message :=
  ⟨"tmi.twitch.tv", "NOTICE", ["*", "Login authentication failed"]⟩

/-- An anonymous session that has completed login. -/
def anonJoinState : ImplState := ⟨true, [], true, true, [], [], true⟩

/-- A parsed JOIN frame whose prefix nickname is a synthesized
anonymous nickname. -/
def selfJoinMsg : Message := ⟨"justinfan1!x", "JOIN", ["#c"]⟩

/-- The same frame as a PART. -/
def selfPartMsg : Message := ⟨"justinfan1!x", "PART", ["#c"]⟩

/-- A `CAP * LS *` continuation frame with exactly three parameters. -/
def capLsStarMsg : Message := ⟨"tmi.twitch.tv", "CAP", ["*", "LS", "*"]⟩

/-- A HOSTTARGET frame whose second parameter contains no space. -/
def hostNoSpaceMsg : Message := ⟨"tmi.twitch.tv", "HOSTTARGET", ["#chan", "-"]⟩

/-- A concrete tag text, for witnesses. -/
def witnessTag : List Char := ['t', 'a', 'g', '=', '1']

/-- A concrete line remainder after the tags, for witnesses. -/
def witnessRest : List Char :=
  [':', 'n', '!', 'h', ' ', 'P', 'R', 'I', 'V', 'M', 'S', 'G', ' ', '#', 'c']

theorem containsCRLF_eq_isSome : ∀ l : List Char, containsCRLF l = (findCRLF l).isSome
  | [] => rfl
  | [_] => rfl
  | c1 :: c2 :: rest => by
    have ih := containsCRLF_eq_isSome (c2 :: rest)
    show ((c1 = '\r' && c2 = '\n') || containsCRLF (c2 :: rest)) =
      (if c1 = '\r' ∧ c2 = '\n' then some 0 else (findCRLF (c2 :: rest)).map (· + 1)).isSome
    by_cases hc : c1 = '\r' ∧ c2 = '\n'
    · simp [hc.1, hc.2]
    · have hcb : (decide (c1 = '\r') && decide (c2 = '\n')) = false := by
        cases hd1 : decide (c1 = '\r') <;> cases hd2 : decide (c2 = '\n') <;> simp_all
      rw [if_neg hc, hcb, Bool.false_or, ih]
      cases findCRLF (c2 :: rest) <;> rfl

theorem findCRLF_decomp : ∀ (l : List Char) (p : Nat), findCRLF l = some p →
    l.take p ++ '\r' :: '\n' :: l.drop (p + 2) = l ∧ containsCRLF (l.take p) = false
  | [], p, h => by simp [findCRLF] at h
  | [c], p, h => by simp [findCRLF] at h
  | c1 :: c2 :: rest, p, h => by
    by_cases hc : c1 = '\r' ∧ c2 = '\n'
    · rw [findCRLF, if_pos hc] at h
      obtain rfl : (0 : Nat) = p := Option.some.inj h
      exact ⟨by simp [hc.1, hc.2], by simp [containsCRLF]⟩
    · rw [findCRLF, if_neg hc] at h
      obtain ⟨q, hq, hpq⟩ := Option.map_eq_some'.mp h
      subst hpq
      have ih := findCRLF_decomp (c2 :: rest) q hq
      constructor
      · have h3 : q + 1 + 2 = (q + 2) + 1 := by omega
        rw [h3, List.drop_succ_cons, List.take_succ_cons, List.cons_append, ih.1]
      · rw [List.take_succ_cons]
        cases q with
        | zero => simp [containsCRLF]
        | succ q' =>
          rw [List.take_succ_cons]
          have ih2 := ih.2
          rw [List.take_succ_cons] at ih2
          have hcb : (decide (c1 = '\r') && decide (c2 = '\n')) = false := by
            cases hd1 : decide (c1 = '\r') <;> cases hd2 : decide (c2 = '\n') <;>
              simp_all
          simp [containsCRLF, hcb, ih2]

/-- C1: for every byte buffer containing at least one CRLF,
`Message::Parse` succeeds, consumes exactly `position_of(CRLF) + 2`
bytes from the front of the buffer (i.e. the buffer decomposes as the
consumed line, the CRLF, and the returned remainder, with no CRLF
inside the consumed line — at most one line per call), and yields the
`Message` unpacked from that line; for every buffer containing no CRLF
it fails and leaves the buffer unchanged. -/
theorem MessageParse_consumes_one_line (buf : List Char) :
    (containsCRLF buf = false → MessageParse buf = none) ∧
    (containsCRLF buf = true →
      ∃ p, findCRLF buf = some p ∧
        MessageParse buf = some (unpackLine (buf.take p), buf.drop (p + 2)) ∧
        buf.take p ++ '\r' :: '\n' :: buf.drop (p + 2) = buf ∧
        containsCRLF (buf.take p) = false) := by
  constructor
  · intro h
    have hn : findCRLF buf = none := by
      have he := containsCRLF_eq_isSome buf
      rw [h] at he
      cases hf : findCRLF buf
      · rfl
      · rw [hf] at he; simp at he
    simp [MessageParse, hn]
  · intro h
    have hs : (findCRLF buf).isSome := by rw [← containsCRLF_eq_isSome, h]
    obtain ⟨p, hp⟩ := Option.isSome_iff_exists.mp hs
    have hd := findCRLF_decomp buf p hp
    exact ⟨p, hp, by simp [MessageParse, hp], hd.1, hd.2⟩

theorem MessageParse_consumes_one_line_witness :
    containsCRLF witnessBuf = true ∧
    ∃ p, findCRLF witnessBuf = some p ∧
      MessageParse witnessBuf = some (unpackLine (witnessBuf.take p), witnessBuf.drop (p + 2)) ∧
      witnessBuf.take p ++ '\r' :: '\n' :: witnessBuf.drop (p + 2) = witnessBuf ∧
      containsCRLF (witnessBuf.take p) = false :=
  ⟨by decide, (MessageParse_consumes_one_line witnessBuf).2 (by decide)⟩

theorem stringMkNilAppend (s : String) : String.mk [] ++ s = s := by
  cases s
  rfl

theorem stringAppendMkNil (s : String) : s ++ String.mk [] = s := by
  cases s with
  | mk d => exact congrArg String.mk (List.append_nil d)

theorem stringPushAppendMk (s : String) (c : Char) (cs : List Char) :
    s.push c ++ String.mk cs = s ++ String.mk (c :: cs) := by
  cases s with
  | mk d =>
    refine congrArg String.mk ?_
    show (d ++ [c]) ++ cs = d ++ (c :: cs)
    rw [List.append_assoc]
    rfl

theorem specStep_rawTags_congr (st : SpecState) (m : TaggedMessage) (t : String) (c : Char)
    (h1 : st ≠ SpecState.LineFirstChar) (h2 : st ≠ SpecState.Tags) :
    specStep st { m with rawTags := t } c =
      ((specStep st m c).1, { (specStep st m c).2 with rawTags := t }) ∧
    (specStep st m c).1 ≠ SpecState.LineFirstChar ∧
    (specStep st m c).1 ≠ SpecState.Tags := by
  cases st <;> simp_all [specStep] <;> split_ifs <;> simp_all

theorem runSpec_rawTags_congr :
    ∀ (l : List Char) (st : SpecState) (m : TaggedMessage) (t : String),
      st ≠ SpecState.LineFirstChar → st ≠ SpecState.Tags →
      runSpec st { m with rawTags := t } l =
        ((runSpec st m l).1, { (runSpec st m l).2 with rawTags := t })
  | [], st, m, t, h1, h2 => rfl
  | c :: rest, st, m, t, h1, h2 => by
    obtain ⟨hstep, hs1, hs2⟩ := specStep_rawTags_congr st m t c h1 h2
    show runSpec (specStep st { m with rawTags := t } c).1
        (specStep st { m with rawTags := t } c).2 rest = _
    rw [hstep]
    exact runSpec_rawTags_congr rest (specStep st m c).1 (specStep st m c).2 t hs1 hs2

theorem runSpec_tags_accumulate :
    ∀ (tagChars rest : List Char) (m : TaggedMessage), ' ' ∉ tagChars →
      runSpec SpecState.Tags m (tagChars ++ ' ' :: rest) =
        runSpec SpecState.PrefixOrCommandFirstChar
          { m with rawTags := m.rawTags ++ String.mk tagChars } rest
  | [], rest, m, _ => by
    have hstep : specStep SpecState.Tags m ' ' =
        (SpecState.PrefixOrCommandFirstChar, m) := by simp [specStep]
    show runSpec (specStep SpecState.Tags m ' ').1 (specStep SpecState.Tags m ' ').2 rest = _
    rw [hstep, stringAppendMkNil]
  | c :: cs, rest, m, h => by
    have hc : ¬(c = ' ') := fun hh => h (hh ▸ List.mem_cons_self c cs)
    have hstep : specStep SpecState.Tags m c =
        (SpecState.Tags, { m with rawTags := m.rawTags.push c }) := by
      simp [specStep, hc]
    show runSpec (specStep SpecState.Tags m c).1 (specStep SpecState.Tags m c).2
      (cs ++ ' ' :: rest) = _
    rw [hstep]
    have ih := runSpec_tags_accumulate cs rest { m with rawTags := m.rawTags.push c }
      (fun hh => h (List.mem_cons_of_mem c hh))
    rw [ih, stringPushAppendMk]

/-- C2: the wire codec of the spec is the nine-state machine with
states `LineFirstChar`, `Tags`, `PrefixOrCommandFirstChar`, `Prefix`,
`CommandFirstChar`, `CommandRest`, `ParamFirstChar`, `ParamRest`,
`Trailer` (the constructors of `SpecState`), and for every line
beginning with `@` the tag text between the `@` and the first space
lands in the message's raw-tags field, while the prefix, command and
parameters are exactly those parsed from the rest of the line — the
tags are not folded into them. -/
theorem specParse_tags_separated (tagChars rest : List Char) (h : ' ' ∉ tagChars) :
    specUnpackLine ('@' :: (tagChars ++ ' ' :: rest)) =
      { specUnpackFrom SpecState.PrefixOrCommandFirstChar rest with
          rawTags := String.mk tagChars } := by
  unfold specUnpackLine specUnpackFrom
  have h0 : runSpec SpecState.LineFirstChar TaggedMessage.empty
      ('@' :: (tagChars ++ ' ' :: rest)) =
      runSpec SpecState.Tags TaggedMessage.empty (tagChars ++ ' ' :: rest) := by
    simp [runSpec, specStep]
  rw [h0, runSpec_tags_accumulate tagChars rest TaggedMessage.empty h]
  have h1 : ({ TaggedMessage.empty with
      rawTags := TaggedMessage.empty.rawTags ++ String.mk tagChars } : TaggedMessage) =
      { TaggedMessage.empty with rawTags := String.mk tagChars } := by
    show ({ TaggedMessage.empty with rawTags := String.mk [] ++ String.mk tagChars } : TaggedMessage) = _
    rw [stringMkNilAppend]
  rw [h1,
    runSpec_rawTags_congr rest SpecState.PrefixOrCommandFirstChar TaggedMessage.empty
      (String.mk tagChars) (by simp) (by simp)]
  by_cases hterm :
      specIncomplete (runSpec SpecState.PrefixOrCommandFirstChar TaggedMessage.empty rest).1 = true
  · simp [hterm]
  · simp [hterm]

theorem specParse_tags_separated_witness :
    ' ' ∉ witnessTag ∧
    specUnpackLine ('@' :: (witnessTag ++ ' ' :: witnessRest)) =
      { specUnpackFrom SpecState.PrefixOrCommandFirstChar witnessRest with
          rawTags := String.mk witnessTag } :=
  ⟨by decide, specParse_tags_separated witnessTag witnessRest (by decide)⟩

/-- C3: on the auth step the engine sends, in this order with nothing
in between, `CAP END`, then (only when the session is not anonymous)
`PASS oauth:<token>`, then `NICK <nickname>` — so `NICK` is never sent
before `CAP END` — emits no events, disconnects nothing, and appends an
`AwaitMotd` action with expiration `now + 5.0` in place of the
processed awaiting action (which the caller's awaiting loop erases). -/
theorem endCap_auth_sequence (s : ImplState) (now : ℚ) (a : Action)
    (htk : s.hasTimeKeeper = true) :
    (EndCapabilitiesHandshakeAndAuthenticate s now a).2.sent =
      (if s.anonymous then ["CAP END" ++ CRLF, "NICK " ++ a.nickname ++ CRLF]
        else ["CAP END" ++ CRLF, "PASS oauth:" ++ a.token ++ CRLF,
          "NICK " ++ a.nickname ++ CRLF]) ∧
    (EndCapabilitiesHandshakeAndAuthenticate s now a).2.events = [] ∧
    (EndCapabilitiesHandshakeAndAuthenticate s now a).2.disconnects = 0 ∧
    (EndCapabilitiesHandshakeAndAuthenticate s now a).1.actionsAwaitingResponses =
      s.actionsAwaitingResponses ++
        [{ a with type := ActionType.AwaitMotd, expiration := now + 5 }] := by
  by_cases ha : s.anonymous <;>
    simp [EndCapabilitiesHandshakeAndAuthenticate, SendLineToTwitchServer, Effects.append,
      noEff, ha, htk]

theorem endCap_auth_sequence_witness :
    baseState.hasTimeKeeper = true ∧
    ((EndCapabilitiesHandshakeAndAuthenticate baseState 0 logInAction).2.sent =
      (if baseState.anonymous then ["CAP END" ++ CRLF, "NICK " ++ logInAction.nickname ++ CRLF]
        else ["CAP END" ++ CRLF, "PASS oauth:" ++ logInAction.token ++ CRLF,
          "NICK " ++ logInAction.nickname ++ CRLF]) ∧
    (EndCapabilitiesHandshakeAndAuthenticate baseState 0 logInAction).2.events = [] ∧
    (EndCapabilitiesHandshakeAndAuthenticate baseState 0 logInAction).2.disconnects = 0 ∧
    (EndCapabilitiesHandshakeAndAuthenticate baseState 0 logInAction).1.actionsAwaitingResponses =
      baseState.actionsAwaitingResponses ++
        [{ logInAction with type := ActionType.AwaitMotd, expiration := 0 + 5 }]) :=
  ⟨rfl, endCap_auth_sequence baseState 0 logInAction rfl⟩

/-- C4: when a CAP LS response completes the capability list
(`parameters[2]` is not `*`), the engine sends
`CAP REQ :twitch.tv/commands twitch.tv/membership twitch.tv/tags` and
retypes the awaiting `LogIn` action to `RequestCaps` exactly when all
three capabilities are in the accumulated advertised set; otherwise it
sends no `CAP REQ` and proceeds directly to the auth step (the action
becomes `AwaitMotd`). -/
theorem capLs_decision (s : ImplState) (now : ℚ) (a : Action) (msg : Message) (p2 : String)
    (hlen : ¬ msg.parameters.length < 3)
    (h1 : msg.parameters[1]? = some "LS")
    (h2 : msg.parameters[2]? = some p2)
    (h3 : ¬ p2 = "*") :
    (hasAllThreeCaps (insertAll s.capsSupported (Split p2 ' ')) = true →
      ProcessActionLogInCap s now a msg =
        some (true, RequestCapabilities
          { s with capsSupported := insertAll s.capsSupported (Split p2 ' ') } now a) ∧
      (RequestCapabilities
          { s with capsSupported := insertAll s.capsSupported (Split p2 ' ') } now a).2.sent =
        ["CAP REQ :twitch.tv/commands twitch.tv/membership twitch.tv/tags" ++ CRLF] ∧
      ((RequestCapabilities
          { s with capsSupported := insertAll s.capsSupported (Split p2 ' ') } now a).1
        ).actionsAwaitingResponses =
        s.actionsAwaitingResponses ++
          [{ a with
              type := ActionType.RequestCaps,
              expiration := if s.hasTimeKeeper then now + 5 else a.expiration }]) ∧
    (hasAllThreeCaps (insertAll s.capsSupported (Split p2 ' ')) = false →
      ProcessActionLogInCap s now a msg =
        some (true, EndCapabilitiesHandshakeAndAuthenticate
          { s with capsSupported := insertAll s.capsSupported (Split p2 ' ') } now a) ∧
      "CAP REQ :twitch.tv/commands twitch.tv/membership twitch.tv/tags" ++ CRLF ∉
        (EndCapabilitiesHandshakeAndAuthenticate
          { s with capsSupported := insertAll s.capsSupported (Split p2 ' ') } now a).2.sent ∧
      ((EndCapabilitiesHandshakeAndAuthenticate
          { s with capsSupported := insertAll s.capsSupported (Split p2 ' ') } now a).1
        ).actionsAwaitingResponses =
        s.actionsAwaitingResponses ++
          [{ a with
              type := ActionType.AwaitMotd,
              expiration := if s.hasTimeKeeper then now + 5 else a.expiration }]) := by
  constructor
  · intro hall
    obtain ⟨⟨hcA, hcB⟩, hcC⟩ :
        ("twitch.tv/commands" ∈ insertAll s.capsSupported (Split p2 ' ') ∧
          "twitch.tv/membership" ∈ insertAll s.capsSupported (Split p2 ' ')) ∧
        "twitch.tv/tags" ∈ insertAll s.capsSupported (Split p2 ' ') := by
      simpa [hasAllThreeCaps, Bool.and_eq_true] using hall
    refine ⟨?_, ?_, ?_⟩
    · simp [ProcessActionLogInCap, hlen, h1, h2, h3, hcA, hcB, hcC]
    · simp [RequestCapabilities, SendLineToTwitchServer]
    · simp [RequestCapabilities]
  · intro hall
    have hor :
        "twitch.tv/commands" ∉ insertAll s.capsSupported (Split p2 ' ') ∨
        "twitch.tv/membership" ∉ insertAll s.capsSupported (Split p2 ' ') ∨
        "twitch.tv/tags" ∉ insertAll s.capsSupported (Split p2 ' ') := by
      by_cases hA : "twitch.tv/commands" ∈ insertAll s.capsSupported (Split p2 ' ') <;>
        by_cases hB : "twitch.tv/membership" ∈ insertAll s.capsSupported (Split p2 ' ') <;>
        by_cases hC : "twitch.tv/tags" ∈ insertAll s.capsSupported (Split p2 ' ') <;>
        simp_all [hasAllThreeCaps]
    refine ⟨?_, ?_, ?_⟩
    · rcases hor with hA | hB | hC
      · simp [ProcessActionLogInCap, hlen, h1, h2, h3, hA]
      · simp [ProcessActionLogInCap, hlen, h1, h2, h3, hB]
      · simp [ProcessActionLogInCap, hlen, h1, h2, h3, hC]
    · have hne1 : ¬ ("CAP REQ :twitch.tv/commands twitch.tv/membership twitch.tv/tags" ++ CRLF
          = "CAP END" ++ CRLF) := by decide
      have hne2 : ¬ ("CAP REQ :twitch.tv/commands twitch.tv/membership twitch.tv/tags" ++ CRLF
          = "PASS oauth:" ++ a.token ++ CRLF) := fun he =>
        absurd (List.cons.inj (congrArg String.data he)).1 (by decide)
      have hne3 : ¬ ("CAP REQ :twitch.tv/commands twitch.tv/membership twitch.tv/tags" ++ CRLF
          = "NICK " ++ a.nickname ++ CRLF) := fun he =>
        absurd (List.cons.inj (congrArg String.data he)).1 (by decide)
      by_cases ha : s.anonymous <;>
        simp [EndCapabilitiesHandshakeAndAuthenticate, SendLineToTwitchServer,
          Effects.append, noEff, ha, hne1, hne2, hne3]
    · simp [EndCapabilitiesHandshakeAndAuthenticate]

theorem capLs_decision_witness :
    hasAllThreeCaps (insertAll baseState.capsSupported (Split threeCapsStr ' ')) = true ∧
    ProcessActionLogInCap baseState 0 logInAction capLsAllMsg =
      some (true, RequestCapabilities
        { baseState with capsSupported := insertAll baseState.capsSupported (Split threeCapsStr ' ') }
        0 logInAction) :=
  ⟨by decide,
    ((capLs_decision baseState 0 logInAction capLsAllMsg threeCapsStr
      (by decide) (by decide) (by decide) (by decide)).1 (by decide)).1⟩

theorem Disconnect_state (s : ImplState) (farewell : String) :
    (Disconnect s farewell).1 = s := by
  by_cases h : s.connection = false <;> simp [Disconnect, h]

theorem TimeoutAction_state (s : ImplState) (a : Action) : (TimeoutAction s a).1 = s := by
  cases h : a.type <;>
    simp [TimeoutAction, h, TimeoutActionLogIn, TimeoutActionRequestCaps,
      TimeoutActionAwaitMotd, Disconnect_state]

theorem sweepTimeouts_spec (now : ℚ) :
    ∀ (l : List Action) (s : ImplState),
      (sweepTimeouts now s l).1 = s ∧
      (sweepTimeouts now s l).2.1 = l.filter (fun b => decide (now < b.expiration)) ∧
      (sweepTimeouts now s l).2.2.1 = l.filter (fun b => decide (now ≥ b.expiration))
  | [], s => ⟨rfl, rfl, rfl⟩
  | a :: rest, s => by
    by_cases h : now ≥ a.expiration
    · have hlt : ¬ now < a.expiration := not_lt.mpr h
      obtain ⟨ih1, ih2, ih3⟩ := sweepTimeouts_spec now rest (TimeoutAction s a).1
      simp only [sweepTimeouts, if_pos h]
      refine ⟨?_, ?_, ?_⟩
      · rw [ih1, TimeoutAction_state]
      · rw [ih2, List.filter_cons]
        simp [hlt]
      · rw [ih3, List.filter_cons]
        simp [h]
    · have hlt : now < a.expiration := not_le.mp h
      obtain ⟨ih1, ih2, ih3⟩ := sweepTimeouts_spec now rest s
      simp only [sweepTimeouts, if_neg h]
      refine ⟨ih1, ?_, ?_⟩
      · rw [ih2, List.filter_cons]
        simp [hlt]
      · rw [ih3, List.filter_cons]
        simp [h]

/-- C5: every action added to the awaiting-responses list (by the
`LogIn` performer, the capability request, or the auth step) carries an
expiration of at most its submit time plus 5.0 seconds; the timeout
sweep removes exactly the actions with `now >= expiration` and
dispatches each of them to its per-type timeout handler exactly once
(the dispatched list is the filtered sublist, so no action is
dispatched twice); and an expired `AwaitMotd` awaiter on a live
connection makes the sweep send `QUIT :Timeout waiting for MOTD`,
disconnect the connection once, and emit `User::LogOut`. -/
theorem awaiting_timeout_policy :
    (∀ (s : ImplState) (now : ℚ) (a : Action), s.hasTimeKeeper = true →
      (∀ b ∈ (EndCapabilitiesHandshakeAndAuthenticate s now a).1.actionsAwaitingResponses,
        b ∈ s.actionsAwaitingResponses ∨ b.expiration ≤ now + 5) ∧
      (∀ b ∈ (RequestCapabilities s now a).1.actionsAwaitingResponses,
        b ∈ s.actionsAwaitingResponses ∨ b.expiration ≤ now + 5) ∧
      (∀ ok : Bool, ∀ b ∈ (PerformActionLogIn s now ok a).1.actionsAwaitingResponses,
        b ∈ s.actionsAwaitingResponses ∨ b.expiration ≤ now + 5)) ∧
    (∀ (s : ImplState) (now : ℚ),
      (ProcessTimeouts s now).1.actionsAwaitingResponses =
        s.actionsAwaitingResponses.filter (fun b => decide (now < b.expiration)) ∧
      (ProcessTimeouts s now).2.1 =
        s.actionsAwaitingResponses.filter (fun b => decide (now ≥ b.expiration))) ∧
    (∀ (s : ImplState) (now : ℚ) (a : Action),
      s.connection = true → a.type = ActionType.AwaitMotd →
      now ≥ a.expiration → s.actionsAwaitingResponses = [a] →
      (ProcessTimeouts s now).1.actionsAwaitingResponses = [] ∧
      (ProcessTimeouts s now).2.2 =
        ⟨["QUIT :Timeout waiting for MOTD" ++ CRLF], 1, [Event.logOut]⟩) := by
  refine ⟨?_, ?_, ?_⟩
  · intro s now a htk
    refine ⟨?_, ?_, ?_⟩
    · intro b hb
      simp [EndCapabilitiesHandshakeAndAuthenticate, htk] at hb
      rcases hb with h | h
      · exact Or.inl h
      · exact Or.inr (by rw [h])
    · intro b hb
      simp [RequestCapabilities, htk] at hb
      rcases hb with h | h
      · exact Or.inl h
      · exact Or.inr (by rw [h])
    · intro ok b hb
      cases hcv : s.connection
      · cases ok
        · simp only [PerformActionLogIn, hcv] at hb
          exact Or.inl hb
        · simp [PerformActionLogIn, hcv, htk] at hb
          rcases hb with h | h
          · exact Or.inl h
          · exact Or.inr (by rw [h])
      · simp only [PerformActionLogIn, hcv] at hb
        exact Or.inl hb
  · intro s now
    obtain ⟨h1, h2, h3⟩ := sweepTimeouts_spec now s.actionsAwaitingResponses
      { s with actionsAwaitingResponses := [] }
    exact ⟨h2, h3⟩
  · intro s now a hconn htype hexp hlist
    have hfe : ("Timeout waiting for MOTD" : String).isEmpty = false := by decide
    simp [ProcessTimeouts, hlist, sweepTimeouts, hexp, TimeoutAction, htype,
      TimeoutActionAwaitMotd, Disconnect, hconn, hfe, Effects.append, noEff]

theorem awaiting_timeout_policy_witness :
    awaitMotdState.connection = true ∧
    motdAwaiter.type = ActionType.AwaitMotd ∧
    (5 : ℚ) ≥ motdAwaiter.expiration ∧
    awaitMotdState.actionsAwaitingResponses = [motdAwaiter] ∧
    (ProcessTimeouts awaitMotdState 5).1.actionsAwaitingResponses = [] ∧
    (ProcessTimeouts awaitMotdState 5).2.2 =
      ⟨["QUIT :Timeout waiting for MOTD" ++ CRLF], 1, [Event.logOut]⟩ := by
  have h := awaiting_timeout_policy.2.2 awaitMotdState 5 motdAwaiter rfl rfl
    (le_refl (5 : ℚ)) rfl
  exact ⟨rfl, rfl, le_refl (5 : ℚ), rfl, h.1, h.2⟩

/-- C6 at the failing input: a `NOTICE * :Login unsuccessful` arriving
before MOTD surfaces the notice via `User::Notice` and emits
`User::LogOut`, but the pending `AwaitMotd` awaiter is NOT discarded —
`DiscardAction` returns `false`, so the awaiting loop keeps it — and
the subsequent timeout sweep therefore fires a second disconnect,
sending `QUIT :Timeout waiting for MOTD` and emitting a second
`User::LogOut`.  Moreover a `NOTICE * :Login authentication failed` is
not treated as an authentication failure at all (the source compares
only against `Login unsuccessful`). -/
theorem notice_login_fail_keeps_awaiter :
    HandleServerCommandNotice awaitMotdState 0 loginFailNotice =
      some (awaitMotdState,
        ⟨[], 0, [Event.notice "Login unsuccessful", Event.logOut]⟩) ∧
    (ProcessTimeouts awaitMotdState 5).2.2 =
      ⟨["QUIT :Timeout waiting for MOTD" ++ CRLF], 1, [Event.logOut]⟩ ∧
    HandleServerCommandNotice awaitMotdState 0 authFailedNotice =
      some (awaitMotdState, ⟨[], 0, [Event.notice "Login authentication failed"]⟩) := by
  refine ⟨by decide, by decide, by decide⟩

/-- C7 counterexample: after one `Disconnect` the connection field is
still set, so a second invocation sends another `QUIT`, calls
`connection->Disconnect()` again, and emits a second `User::LogOut` —
it is not a no-op, refuting the claim at this concrete input. -/
theorem disconnect_second_invocation_not_noop :
    (Disconnect (Disconnect baseState "bye").1 "bye").2 =
      ⟨["QUIT :bye" ++ CRLF], 1, [Event.logOut]⟩ ∧
    (Disconnect baseState "bye").1.connection = true := by
  exact ⟨by decide, by decide⟩

/-- C7 (amended): `Disconnect` — reached from both `ServerDisconnected`
and `LogOut` — is a no-op when no connection exists; when a connection
exists it sends `QUIT :<farewell>` exactly when the farewell is
non-empty, calls `connection->Disconnect()` once, and emits
`User::LogOut`; but it does NOT clear the connection field, so a second
invocation repeats the QUIT, the disconnect and the `User::LogOut`
rather than being a no-op. -/
theorem disconnect_behavior (s : ImplState) (farewell : String) (a : Action) :
    (s.connection = false → Disconnect s farewell = (s, noEff)) ∧
    (s.connection = true →
      Disconnect s farewell =
        (s, ⟨if farewell.isEmpty then [] else ["QUIT :" ++ farewell ++ CRLF], 1,
          [Event.logOut]⟩)) ∧
    (Disconnect s farewell).1 = s ∧
    PerformActionServerDisconnected s = Disconnect s "" ∧
    PerformActionLogOut s a = Disconnect s a.message := by
  refine ⟨?_, ?_, Disconnect_state s farewell, rfl, rfl⟩
  · intro h
    simp [Disconnect, h]
  · intro h
    simp [Disconnect, h]

theorem disconnect_behavior_witness :
    baseState.connection = true ∧
    Disconnect baseState "bye" =
      (baseState,
        ⟨if ("bye" : String).isEmpty then [] else ["QUIT :" ++ "bye" ++ CRLF], 1,
          [Event.logOut]⟩) :=
  ⟨rfl, (disconnect_behavior baseState "bye" logInAction).2.1 rfl⟩

/-- C8: in anonymous mode the auth step sends `CAP END` and `NICK`
only — no sent line begins with the characters `PASS` — and performing
a `SendMessage` or `SendWhisper` action leaves the state unchanged and
produces zero wire output, zero disconnects and zero events. -/
theorem anonymous_no_pass_no_output (s : ImplState) (now : ℚ) (a : Action)
    (h : s.anonymous = true) :
    (EndCapabilitiesHandshakeAndAuthenticate s now a).2.sent =
      ["CAP END" ++ CRLF, "NICK " ++ a.nickname ++ CRLF] ∧
    (∀ line ∈ (EndCapabilitiesHandshakeAndAuthenticate s now a).2.sent,
      line.data.take 4 ≠ ['P', 'A', 'S', 'S']) ∧
    PerformActionSendMessage s a = (s, noEff) ∧
    PerformActionSendWhisper s a = (s, noEff) := by
  have hsent : (EndCapabilitiesHandshakeAndAuthenticate s now a).2.sent =
      ["CAP END" ++ CRLF, "NICK " ++ a.nickname ++ CRLF] := by
    simp [EndCapabilitiesHandshakeAndAuthenticate, SendLineToTwitchServer, Effects.append,
      noEff, h]
  refine ⟨hsent, ?_, ?_, ?_⟩
  · intro line hline
    rw [hsent] at hline
    simp only [List.mem_cons, List.not_mem_nil, or_false] at hline
    rcases hline with h1 | h1 <;> subst h1
    · decide
    · show (['N', 'I', 'C', 'K'] : List Char) ≠ ['P', 'A', 'S', 'S']
      decide
  · cases hc : s.connection <;> simp [PerformActionSendMessage, hc, h]
  · cases hc : s.connection <;> simp [PerformActionSendWhisper, hc, h]

theorem anonymous_no_pass_no_output_witness :
    anonState.anonymous = true ∧
    ((EndCapabilitiesHandshakeAndAuthenticate anonState 0 logInAction).2.sent =
      ["CAP END" ++ CRLF, "NICK " ++ logInAction.nickname ++ CRLF] ∧
    (∀ line ∈ (EndCapabilitiesHandshakeAndAuthenticate anonState 0 logInAction).2.sent,
      line.data.take 4 ≠ ['P', 'A', 'S', 'S']) ∧
    PerformActionSendMessage anonState logInAction = (anonState, noEff) ∧
    PerformActionSendWhisper anonState logInAction = (anonState, noEff)) :=
  ⟨rfl, anonymous_no_pass_no_output anonState 0 logInAction rfl⟩

/-- C9 counterexample: in an anonymous session, a JOIN or PART frame
whose prefix nickname is the session's own synthesized
`justinfan<digits>` nickname still causes `User::Join`/`User::Leave`
to be emitted, refuting the claim at this concrete input. -/
theorem join_self_emits_events :
    anonJoinState.anonymous = true ∧
    (HandleServerCommandJoin anonJoinState selfJoinMsg).2.events =
      [Event.join "justinfan1" "c"] ∧
    (HandleServerCommandPart anonJoinState selfPartMsg).2.events =
      [Event.leave "justinfan1" "c"] := by
  refine ⟨rfl, by decide, by decide⟩

/-- C9 (amended): a JOIN or PART frame with a channel parameter and a
`!` in its prefix always emits `User::Join`/`User::Leave` for the
nickname before the `!` — in every session, anonymous sessions with
their own synthesized `justinfan<digits>` nickname included; the
handlers contain no filtering against the session's own nickname. -/
theorem join_part_always_emit (s : ImplState) (msg : Message) (d : Nat)
    (h1 : ¬ msg.parameters.length < 1)
    (h2 : ¬ (msg.parameters[0]?.getD "").length < 2)
    (h3 : findChar msg.pfx.toList '!' = some d) :
    HandleServerCommandJoin s msg =
      (s, ⟨[], 0, [Event.join (strTake msg.pfx d)
        (strDrop (msg.parameters[0]?.getD "") 1)]⟩) ∧
    HandleServerCommandPart s msg =
      (s, ⟨[], 0, [Event.leave (strTake msg.pfx d)
        (strDrop (msg.parameters[0]?.getD "") 1)]⟩) := by
  have h3' : findChar msg.pfx.data '!' = some d := h3
  constructor <;> simp [HandleServerCommandJoin, HandleServerCommandPart, h1, h2, h3']

theorem join_part_always_emit_witness :
    ¬ selfJoinMsg.parameters.length < 1 ∧
    ¬ (selfJoinMsg.parameters[0]?.getD "").length < 2 ∧
    findChar selfJoinMsg.pfx.toList '!' = some 10 ∧
    HandleServerCommandJoin anonJoinState selfJoinMsg =
      (anonJoinState, ⟨[], 0, [Event.join (strTake selfJoinMsg.pfx 10)
        (strDrop (selfJoinMsg.parameters[0]?.getD "") 1)]⟩) :=
  ⟨by decide, by decide, by decide,
    (join_part_always_emit anonJoinState selfJoinMsg 10
      (by decide) (by decide) (by decide)).1⟩

/-- C10 at the failing inputs: processing the CAP frame `CAP * LS *` —
exactly three parameters with `parameters[1] = "LS"` and
`parameters[2] = "*"` — against an awaiting `LogIn` action reads
`parameters[3]`, which does not exist, so the embedded access yields
`none` (an out-of-bounds `std::vector` access in the source); and the
HOSTTARGET handler on a frame whose second parameter contains no space
reads element 1 of a one-element split, also out of bounds. -/
theorem cap_hosttarget_oob :
    capLsStarMsg.parameters.length = 3 ∧
    capLsStarMsg.parameters[3]? = none ∧
    ProcessActionLogInCap baseState 0 logInAction capLsStarMsg = none ∧
    (Split "-" ' ').length = 1 ∧
    HandleServerCommandHostTarget baseState hostNoSpaceMsg = none := by
  refine ⟨rfl, rfl, by decide, rfl, by decide⟩

end Twitch
